import Mathlib

/-!
Shallow embedding of `src/server.py` (a local "memory" MCP server backed by
SQLite): saving memory snippets, keyword search via SQL `LIKE`, and
embedding-based vector search with cosine-similarity ranking.

Modelling conventions:
* Python floats are modelled as real numbers (`ℝ`).
* A SQLite row is a Lean structure; the two tables plus the AUTOINCREMENT
  counter form a `Store`.
* The `tags` column stores `json.dumps(tags or [])` and is read back with
  `json.loads` (falling back to `[]`); since the writer is the only producer,
  the serialized text is modelled as the decoded list itself.
* The `embedding` TEXT column is modelled as `Option (List ℝ)`: `none` stands
  for stored text that `json.loads` cannot decode (such rows are skipped by
  the ranking loop's `except: continue`).
* `_embed_text` is an external effect; a run of it is modelled by a function
  `String → EmbedOutcome` where `unavailable` is Python `None` (credentials
  missing), `failure` is an exception raised by the backend call (network
  error, non-success HTTP status, ...), and `ok v` is a returned vector.
* Raised exceptions become `Except` errors: `ValueError("limit must be
  positive")` is `RequestError.invalidArgument`, an uncaught embedding
  exception is `RequestError.embeddingFailure`.
-/

namespace MemoryMcp

/-- A row of the `memories` table (`CREATE_TABLE_SQL`): integer primary key,
insert timestamp `created_at` (modelled as a natural number, ordered like
`datetime(created_at)`), optional `title`, required `content`, serialized
`tags` (modelled decoded), optional `source`. -/
structure Memory where
  id : Nat
  created_at : Nat
  title : Option String
  content : String
  tags : List String
  source : Option String
  deriving DecidableEq, Repr

/-- A row of the `memory_embeddings` table (`CREATE_EMBEDDINGS_SQL`):
`memory_id` is the primary key, `model` the producing model name, and
`embedding` the stored JSON text, modelled as the decoded vector
(`none` = undecodable text). -/
structure EmbeddingRow where
  memory_id : Nat
  model : String
  embedding : Option (List ℝ)

/-- The SQLite database state: both tables plus the id that the next
`INSERT INTO memories` receives (AUTOINCREMENT). The list order of
`memories` is rowid order (insertion order). -/
structure Store where
  memories : List Memory
  embeddings : List EmbeddingRow
  nextId : Nat

/-- The dict literal returned by `save_memory`:
`{"id", "title", "content", "tags", "source"}` with `tags or []`. -/
structure SaveRecord where
  id : Nat
  title : Option String
  content : String
  tags : List String
  source : Option String
  deriving DecidableEq, Repr

/-- Outcome of one call to `_embed_text`: `unavailable` models `return None`
(API key absent), `failure` models an exception raised by the HTTP/SDK call,
`ok v` a successfully returned embedding vector. -/
inductive EmbedOutcome where
  | unavailable
  | failure
  | ok (vec : List ℝ)

/-- Exceptions a request can surface to the caller: `invalidArgument` is the
`ValueError` raised by `fetch_memories` on a non-positive limit;
`embeddingFailure` is an embedding-backend exception propagating out of
`_search_memories_vector`. -/
inductive RequestError where
  | invalidArgument
  | embeddingFailure
  deriving DecidableEq, Repr

/-- SQLite `LIKE` is case-insensitive for the ASCII range only: fold the 26
ASCII uppercase letters to lowercase, leave everything else alone. -/
def foldAscii (c : Char) : Char :=
  if 'A' ≤ c ∧ c ≤ 'Z' then Char.ofNat (c.toNat + 32) else c

/-- SQLite `LIKE` pattern matching over character lists: `%` matches any
sequence of zero or more characters (equivalently, the rest of the pattern
matches some suffix of the string), `_` matches exactly one character, any
other pattern character matches one character up to ASCII case folding. No
ESCAPE clause is in play (the code never supplies one). -/
def likeMatch : List Char → List Char → Bool
  | [], s => s.isEmpty
  | p :: ps, s =>
    if p = '%' then s.tails.any fun t => likeMatch ps t
    else
      match s with
      | [] => false
      | c :: s2 => (decide (p = '_') || foldAscii p == foldAscii c) && likeMatch ps s2

/-- The pattern `f"%{query}%"` that `_search_memories_keyword` binds to both
`LIKE` placeholders: the raw query between two `%` wildcards, with no
escaping of `%`/`_` occurring inside the query. -/
def likePattern (q : String) : List Char :=
  '%' :: (q.data ++ ['%'])

/-- The `WHERE content LIKE ? OR IFNULL(title, '') LIKE ?` row predicate of
the keyword query: a `NULL` title participates as the empty string. -/
def keywordMatch (q : String) (m : Memory) : Bool :=
  likeMatch (likePattern q) m.content.data ||
    likeMatch (likePattern q) (m.title.getD "").data

/-- The `ORDER BY datetime(created_at) DESC, id DESC` comparison: `a` may
come before `b` iff `a` is strictly more recent, or equally recent with the
larger-or-equal id. -/
def recencyDesc (a b : Memory) : Bool :=
  decide (b.created_at < a.created_at ∨
    (a.created_at = b.created_at ∧ b.id ≤ a.id))

/-- Model of `_search_memories_keyword`: rows whose `content` or
`IFNULL(title, '')` matches `%query%`, ordered by `created_at` descending
then `id` descending, capped at `limit`. -/
def searchMemoriesKeyword (st : Store) (query : String) (limit : Nat) :
    List Memory :=
  (((st.memories.filter (keywordMatch query)).mergeSort recencyDesc).take limit)

/-- Spec-side phrasing used by the empty-query claim: the `limit` most recent
memories of the store, ordered by `created_at` descending then `id`
descending, regardless of their content or title. -/
def mostRecent (st : Store) (limit : Nat) : List Memory :=
  ((st.memories.mergeSort recencyDesc).take limit)

/-- Dot product `sum(x * y for x, y in zip(a, b))` of `_cosine_similarity`. -/
def dotList (a b : List ℝ) : ℝ :=
  ((a.zip b).map fun p => p.1 * p.2).sum

/-- Sum of squares `sum(x * x for x in a)` of `_cosine_similarity`. -/
def sumSq (a : List ℝ) : ℝ :=
  (a.map fun x => x * x).sum

/-- Euclidean magnitude `math.sqrt(sum(x * x for x in a))` of a vector. -/
noncomputable def magnitude (a : List ℝ) : ℝ :=
  Real.sqrt (sumSq a)

/-- Model of `_cosine_similarity`: `0.0` when either vector is empty or the
lengths differ; `0.0` when either magnitude is zero; otherwise the dot
product divided by the product of the magnitudes. -/
noncomputable def cosine_similarity (a b : List ℝ) : ℝ :=
  if a = [] ∨ b = [] ∨ a.length ≠ b.length then 0
  else if magnitude a = 0 ∨ magnitude b = 0 then 0
  else dotList a b / (magnitude a * magnitude b)

/-- Model of `_search_memories_vector`, parameterised by the embedding
effect and the configured `EMBEDDING_MODEL`. A `None` query embedding falls
back to the keyword search; an exception from `_embed_text` is NOT caught
here (no `try` surrounds the call) and propagates to the caller. Otherwise:
load the rows of the active model, return `[]` when there are none, score
each decodable row by cosine similarity (skipping undecodable rows), sort
stably by score descending (`list.sort(..., reverse=True)`), take the first
`limit` ids (SQLite integer primary keys are never `None`, so the
`is not None` filter drops nothing), fetch those rows, and reorder the fetch
result to the ranking order (`order.get(id, len(order))` is modelled by
`List.indexOf`, which also yields the list length for a missing id). -/
noncomputable def searchMemoriesVector (embed : String → EmbedOutcome)
    (model : String) (st : Store) (query : String) (limit : Nat) :
    Except RequestError (List Memory) :=
  match embed query with
  | .unavailable => .ok (searchMemoriesKeyword st query limit)
  | .failure => .error .embeddingFailure
  | .ok query_embedding =>
    let rows := st.embeddings.filter fun r => r.model == model
    if rows.isEmpty then .ok []
    else
      let scores : List (Nat × ℝ) := rows.filterMap fun r =>
        match r.embedding with
        | none => none
        | some vec => some (r.memory_id, cosine_similarity query_embedding vec)
      let ranked := scores.mergeSort fun x y => decide (y.2 ≤ x.2)
      let top_ids := (ranked.take limit).map Prod.fst
      if top_ids.isEmpty then .ok []
      else
        let fetched := st.memories.filter fun m => top_ids.contains m.id
        .ok (fetched.mergeSort fun r s =>
          decide (top_ids.indexOf r.id ≤ top_ids.indexOf s.id))

/-- Model of `save_memory`: unconditionally INSERT the memory row (there is
no validation of `content` anywhere in the function), remember `lastrowid`,
then, if `generate_embedding`, attempt `_embed_text(content)` inside a
`try/except Exception: pass` — a `None` result (raised as `RuntimeError`)
and any backend exception are both swallowed, keeping the textual memory; a
returned vector is upserted (`INSERT OR REPLACE`, primary key `memory_id`).
`now` models the store-assigned `datetime('now')`. Returns the new state and
the echoed record. -/
def save_memory (embed : String → EmbedOutcome) (model : String) (st : Store)
    (content : String) (title : Option String) (tags : Option (List String))
    (source : Option String) (generate_embedding : Bool) (now : Nat) :
    Store × SaveRecord :=
  let memory_id := st.nextId
  let row : Memory :=
    { id := memory_id, created_at := now, title := title, content := content,
      tags := tags.getD [], source := source }
  let st1 : Store :=
    { st with memories := st.memories ++ [row], nextId := st.nextId + 1 }
  let st2 : Store :=
    if generate_embedding then
      match embed content with
      | .ok vec =>
        { st1 with embeddings :=
            (st1.embeddings.filter fun r => r.memory_id != memory_id) ++
              [{ memory_id := memory_id, model := model, embedding := some vec }] }
      | .unavailable => st1
      | .failure => st1
    else st1
  (st2, { id := memory_id, title := title, content := content,
          tags := tags.getD [], source := source })

/-- Model of `fetch_memories`: raise `ValueError` (`invalidArgument`) when
`limit <= 0` — this check precedes `_get_connection`, so it fires for every
store state alike; silently cap `limit` at 50; then dispatch on
`use_vector_search`. Each returned row is re-assembled into a dict with
exactly the row's fields (the `tags` JSON decode with its `[]` fallback is
absorbed by the decoded-tags modelling), so the result is the row list
itself. -/
noncomputable def fetch_memories (embed : String → EmbedOutcome)
    (model : String) (st : Store) (query : String) (limit : Int)
    (use_vector_search : Bool) : Except RequestError (List Memory) :=
  if limit ≤ 0 then .error .invalidArgument
  else
    let lim : Nat := (min limit 50).toNat
    if use_vector_search then searchMemoriesVector embed model st query lim
    else .ok (searchMemoriesKeyword st query lim)

/-- An empty database: no rows, first AUTOINCREMENT id is 1. -/
def store0 : Store :=
  { memories := [], embeddings := [], nextId := 1 }

/-- A one-row database holding a single memory with content `"q"` and no
embedding rows. -/
def memM : Memory :=
  { id := 1, created_at := 0, title := none, content := "q", tags := [],
    source := none }

/-- The store whose only memory is `memM`. -/
def storeM : Store :=
  { memories := [memM], embeddings := [], nextId := 2 }

/-! Facts about `likeMatch`. -/

/-- A lone `%` wildcard matches every string (`[]` is always a suffix). -/
theorem likeMatch_pct_any (s : List Char) : likeMatch ['%'] s = true := by
  simp only [likeMatch, if_pos rfl]
  refine List.any_eq_true.mpr ⟨[], ?_, rfl⟩
  rw [List.mem_tails]
  exact List.nil_suffix

/-- A leading `%` absorbs an arbitrary string in front of a match. -/
theorem likeMatch_pct_extend (p : List Char) (pre s : List Char)
    (h : likeMatch p s = true) : likeMatch ('%' :: p) (pre ++ s) = true := by
  simp only [likeMatch, if_pos rfl]
  refine List.any_eq_true.mpr ⟨s, ?_, h⟩
  rw [List.mem_tails]
  exact List.suffix_append pre s

/-- A pattern that is a literal list followed by `%` matches that very list
followed by anything: a `%` or `_` inside the literal part only ever matches
more, never less, than its own occurrence. -/
theorem likeMatch_self_pct (q suf : List Char) :
    likeMatch (q ++ ['%']) (q ++ suf) = true := by
  induction q with
  | nil => simpa using likeMatch_pct_any suf
  | cons c q2 ih =>
    rw [List.cons_append, List.cons_append]
    by_cases hc : c = '%'
    · subst hc
      exact likeMatch_pct_extend (q2 ++ ['%']) ['%'] (q2 ++ suf) ih
    · simp [likeMatch, hc, ih]

/-- The `%q%` pattern matches every string with `q` as a substring. -/
theorem likeMatch_substring (q pre suf : List Char) :
    likeMatch ('%' :: (q ++ ['%'])) (pre ++ (q ++ suf)) = true :=
  likeMatch_pct_extend (q ++ ['%']) pre (q ++ suf) (likeMatch_self_pct q suf)

/-- The `%%` pattern produced by the empty query matches every string. -/
theorem likeMatch_double_pct (s : List Char) : likeMatch ['%', '%'] s = true := by
  have h := likeMatch_substring [] s []
  simpa using h

/-- The empty query's row predicate accepts every row. -/
theorem keywordMatch_empty (m : Memory) : keywordMatch "" m = true := by
  have h1 := likeMatch_double_pct m.content.data
  have hpat : likePattern "" = ['%', '%'] := rfl
  simp [keywordMatch, hpat, h1]

/-! Arithmetic facts about the similarity ranker. -/

theorem dotList_self (v : List ℝ) : dotList v v = sumSq v := by
  induction v with
  | nil => rfl
  | cons x xs ih => simp [dotList, sumSq] at ih ⊢; simp [ih]

theorem sumSq_nonneg (v : List ℝ) : 0 ≤ sumSq v := by
  induction v with
  | nil => simp [sumSq]
  | cons x xs ih =>
    simp only [sumSq, List.map_cons, List.sum_cons] at ih ⊢
    have hx : 0 ≤ x * x := mul_self_nonneg x
    linarith

theorem sumSq_pos (v : List ℝ) (h : ∃ x ∈ v, x ≠ 0) : 0 < sumSq v := by
  induction v with
  | nil => simp at h
  | cons y ys ih =>
    simp only [sumSq, List.map_cons, List.sum_cons]
    rcases h with ⟨x, hx, hxne⟩
    rcases List.mem_cons.mp hx with rfl | hmem
    · have h1 : 0 < x * x := mul_self_pos.mpr hxne
      have h2 : 0 ≤ sumSq ys := sumSq_nonneg ys
      simp only [sumSq] at h2
      linarith
    · have h1 : 0 < sumSq ys := ih ⟨x, hmem, hxne⟩
      simp only [sumSq] at h1
      have h2 : 0 ≤ y * y := mul_self_nonneg y
      linarith

/-! Shared facts about `save_memory` and the keyword search. -/

/-- Whatever the embedding branch does, `save_memory` appends exactly one
memory row, carrying the next AUTOINCREMENT id and the echoed fields. -/
theorem save_memory_memories (embed : String → EmbedOutcome) (model : String)
    (st : Store) (content : String) (title : Option String)
    (tags : Option (List String)) (source : Option String)
    (generate_embedding : Bool) (now : Nat) :
    (save_memory embed model st content title tags source generate_embedding
        now).1.memories =
      st.memories ++
        [{ id := st.nextId, created_at := now, title := title,
           content := content, tags := tags.getD [], source := source }] := by
  cases generate_embedding <;> cases hembed : embed content <;>
    simp [save_memory, hembed]

/-- The record `save_memory` returns echoes the input plus the assigned id,
independently of the embedding branch. -/
theorem save_memory_record (embed : String → EmbedOutcome) (model : String)
    (st : Store) (content : String) (title : Option String)
    (tags : Option (List String)) (source : Option String)
    (generate_embedding : Bool) (now : Nat) :
    (save_memory embed model st content title tags source generate_embedding
        now).2 =
      { id := st.nextId, title := title, content := content,
        tags := tags.getD [], source := source } := rfl

/-- A matching row within the limit is returned by the keyword search. -/
theorem mem_searchMemoriesKeyword (st : Store) (q : String) (lim : Nat)
    (m : Memory) (hm : m ∈ st.memories) (hmatch : keywordMatch q m = true)
    (hlim : (st.memories.filter (keywordMatch q)).length ≤ lim) :
    m ∈ searchMemoriesKeyword st q lim := by
  unfold searchMemoriesKeyword
  have hperm :=
    List.mergeSort_perm (st.memories.filter (keywordMatch q)) recencyDesc
  have hlen :
      ((st.memories.filter (keywordMatch q)).mergeSort recencyDesc).length ≤
        lim := by
    rw [hperm.length_eq]; exact hlim
  rw [List.take_of_length_le hlen]
  exact hperm.mem_iff.mpr (List.mem_filter.mpr ⟨hm, hmatch⟩)

/-! Claim theorems. -/

/-- C1 (counterexample): `save_memory` called with `content = ""` does not
fail and does write a row — on the empty store it returns the record
`{id := 1, ...}` and leaves the store with one memory, so the claim "fails
with InvalidArgument and no Memory row is written" is false at this input. -/
theorem save_empty_content_cex :
    (save_memory (fun _ => EmbedOutcome.unavailable) "m" store0 "" none none
        none true 0).1.memories ≠ store0.memories ∧
    (save_memory (fun _ => EmbedOutcome.unavailable) "m" store0 "" none none
        none true 0).2 =
      { id := 1, title := none, content := "", tags := [], source := none } := by
  constructor
  · decide
  · rfl

/-- C1 (amended): `save_memory` performs no validation of `content`; with
`content = ""` it behaves like any other save — a Memory row with empty
content and the next AUTOINCREMENT id is appended for every store state and
every embedding outcome, and the returned record echoes the input plus the
assigned id. -/
theorem save_empty_content_succeeds (embed : String → EmbedOutcome)
    (model : String) (st : Store) (title : Option String)
    (tags : Option (List String)) (source : Option String)
    (generate_embedding : Bool) (now : Nat) :
    (save_memory embed model st "" title tags source generate_embedding
        now).1.memories =
      st.memories ++
        [{ id := st.nextId, created_at := now, title := title, content := "",
           tags := tags.getD [], source := source }] ∧
    (save_memory embed model st "" title tags source generate_embedding
        now).2 =
      { id := st.nextId, title := title, content := "", tags := tags.getD [],
        source := source } :=
  ⟨save_memory_memories embed model st "" title tags source generate_embedding
      now,
   save_memory_record embed model st "" title tags source generate_embedding
      now⟩

/-- C2 (counterexample): when the embedding call raises a transport error
during a vector-mode search, `fetch_memories` propagates the exception
instead of returning the keyword results: on a store whose keyword search
for the same query and limit returns `[memM]`, the vector-mode call returns
the error. -/
theorem fetch_vector_failure_cex :
    fetch_memories (fun _ => EmbedOutcome.failure) "m" storeM "q" 10 true =
      .error .embeddingFailure ∧
    fetch_memories (fun _ => EmbedOutcome.failure) "m" storeM "q" 10 false =
      .ok [memM] := by
  constructor
  · norm_num [fetch_memories, searchMemoriesVector]
  · have hmatch : keywordMatch "q" memM = true := by decide
    norm_num [fetch_memories, searchMemoriesKeyword, storeM, hmatch]

/-- C2 (amended): an embedding-backend exception raised while embedding the
query of a vector-mode search is not caught: `_search_memories_vector`
propagates it, and `fetch_memories` (for any positive limit) surfaces it to
the caller rather than falling back to keyword results. -/
theorem vector_embed_failure_propagates (embed : String → EmbedOutcome)
    (model : String) (st : Store) (query : String) (lim : Nat) (limitI : Int)
    (h : embed query = .failure) (hlim : 0 < limitI) :
    searchMemoriesVector embed model st query lim =
      .error .embeddingFailure ∧
    fetch_memories embed model st query limitI true =
      .error .embeddingFailure := by
  have hl : ¬ limitI ≤ 0 := by omega
  constructor
  · simp [searchMemoriesVector, h]
  · simp [fetch_memories, hl, searchMemoriesVector, h]

/-- C2 (witness): the amended transport-error behaviour at a concrete
failing embedder, store, query and limit. -/
theorem vector_embed_failure_propagates_witness :
    searchMemoriesVector (fun _ => EmbedOutcome.failure) "m" storeM "q" 10 =
      .error .embeddingFailure ∧
    fetch_memories (fun _ => EmbedOutcome.failure) "m" storeM "q" 10 true =
      .error .embeddingFailure :=
  vector_embed_failure_propagates (fun _ => EmbedOutcome.failure) "m" storeM
    "q" 10 10 rfl (by decide)

/-- C3: for any non-empty content, a save with embedding generation
requested still appends the memory row and returns the echoed record when
the embedding backend is unconfigured (`None`, re-raised as `RuntimeError`)
or raises any failure; the `except Exception: pass` swallows it, the
embeddings table is untouched, and the save is never rolled back. -/
theorem save_swallows_embedding_failure (embed : String → EmbedOutcome)
    (model : String) (st : Store) (content : String) (title : Option String)
    (tags : Option (List String)) (source : Option String) (now : Nat)
    (hcontent : content ≠ "")
    (hfail : embed content = .unavailable ∨ embed content = .failure) :
    (save_memory embed model st content title tags source true now).1.memories =
      st.memories ++
        [{ id := st.nextId, created_at := now, title := title,
           content := content, tags := tags.getD [], source := source }] ∧
    (save_memory embed model st content title tags source true
        now).1.embeddings = st.embeddings ∧
    (save_memory embed model st content title tags source true now).2 =
      { id := st.nextId, title := title, content := content,
        tags := tags.getD [], source := source } := by
  refine ⟨save_memory_memories embed model st content title tags source true
      now, ?_, save_memory_record embed model st content title tags source
      true now⟩
  rcases hfail with h | h <;> simp [save_memory, h]

/-- C3 (witness): a concrete save under a failing embedding backend. -/
theorem save_swallows_embedding_failure_witness :
    (save_memory (fun _ => EmbedOutcome.failure) "m" store0 "x" none none
        none true 0).1.memories =
      store0.memories ++
        [{ id := 1, created_at := 0, title := none, content := "x",
           tags := [], source := none }] ∧
    (save_memory (fun _ => EmbedOutcome.failure) "m" store0 "x" none none
        none true 0).1.embeddings = store0.embeddings ∧
    (save_memory (fun _ => EmbedOutcome.failure) "m" store0 "x" none none
        none true 0).2 =
      { id := 1, title := none, content := "x", tags := [], source := none } :=
  save_swallows_embedding_failure (fun _ => EmbedOutcome.failure) "m" store0
    "x" none none none 0 (by decide) (Or.inr rfl)

/-- C4: when the query embedding is produced but the store holds no
embedding row for the active model, the vector search returns the empty
list — the keyword path is not consulted, whatever it would return. -/
theorem vector_no_stored_embeddings_empty (embed : String → EmbedOutcome)
    (model : String) (st : Store) (query : String) (lim : Nat)
    (qv : List ℝ) (hok : embed query = .ok qv)
    (hrows : st.embeddings.filter (fun r => r.model == model) = []) :
    searchMemoriesVector embed model st query lim = .ok [] := by
  simp [searchMemoriesVector, hok, hrows]

/-- C4 (witness): a store with a memory that the keyword search would
return, but with zero stored embeddings: the vector search returns `[]`. -/
theorem vector_no_stored_embeddings_empty_witness :
    searchMemoriesVector (fun _ => EmbedOutcome.ok [1]) "m" storeM "q" 10 =
      .ok [] :=
  vector_no_stored_embeddings_empty (fun _ => EmbedOutcome.ok [1]) "m" storeM
    "q" 10 [1] rfl rfl

/-- C5: with the embedding provider unconfigured (the embedder yields
`None`), the vector search returns exactly the keyword search results, and
`fetch_memories` behaves identically in both modes for the same query and
limit. -/
theorem vector_unconfigured_equals_keyword (embed : String → EmbedOutcome)
    (model : String) (st : Store) (query : String) (lim : Nat) (limitI : Int)
    (h : embed query = .unavailable) :
    searchMemoriesVector embed model st query lim =
      .ok (searchMemoriesKeyword st query lim) ∧
    fetch_memories embed model st query limitI true =
      fetch_memories embed model st query limitI false := by
  constructor
  · simp [searchMemoriesVector, h]
  · by_cases hl : limitI ≤ 0
    · simp [fetch_memories, hl]
    · simp [fetch_memories, hl, searchMemoriesVector, h]

/-- C5 (witness): the mode-downgrade at a concrete unconfigured embedder,
store, query and limit. -/
theorem vector_unconfigured_equals_keyword_witness :
    searchMemoriesVector (fun _ => EmbedOutcome.unavailable) "m" storeM "q"
        10 = .ok (searchMemoriesKeyword storeM "q" 10) ∧
    fetch_memories (fun _ => EmbedOutcome.unavailable) "m" storeM "q" 10
        true =
      fetch_memories (fun _ => EmbedOutcome.unavailable) "m" storeM "q" 10
        false :=
  vector_unconfigured_equals_keyword (fun _ => EmbedOutcome.unavailable) "m"
    storeM "q" 10 10 rfl

/-- C6: `fetch_memories` raises `ValueError` (InvalidArgument) for a
non-positive limit — the check runs before the store is opened, so the
outcome is the same for every store state — and a limit above 50 is
silently capped: the call behaves exactly as with limit 50. -/
theorem fetch_limit_validation (embed : String → EmbedOutcome)
    (model : String) (st : Store) (query : String) (use_vector_search : Bool)
    (limitI : Int) :
    (limitI ≤ 0 →
      fetch_memories embed model st query limitI use_vector_search =
        .error .invalidArgument) ∧
    (50 < limitI →
      fetch_memories embed model st query limitI use_vector_search =
        fetch_memories embed model st query 50 use_vector_search) := by
  constructor
  · intro h
    simp [fetch_memories, h]
  · intro h
    have h0 : ¬ limitI ≤ 0 := by omega
    have h50 : ¬ (50 : Int) ≤ 0 := by omega
    have hmin : min limitI 50 = 50 := min_eq_right (by omega)
    simp only [fetch_memories, if_neg h0, if_neg h50, hmin, min_self]

/-- C6 (witness): limit 0 is rejected; limit 1000 behaves as limit 50. -/
theorem fetch_limit_validation_witness :
    fetch_memories (fun _ => EmbedOutcome.unavailable) "m" storeM "q" 0
        false = .error .invalidArgument ∧
    fetch_memories (fun _ => EmbedOutcome.unavailable) "m" storeM "q" 1000
        false =
      fetch_memories (fun _ => EmbedOutcome.unavailable) "m" storeM "q" 50
        false :=
  ⟨(fetch_limit_validation (fun _ => EmbedOutcome.unavailable) "m" storeM "q"
      false 0).1 (by decide),
   (fetch_limit_validation (fun _ => EmbedOutcome.unavailable) "m" storeM "q"
      false 1000).2 (by decide)⟩

/-- C7: `_cosine_similarity` returns 0.0 (it is total, so nothing is
raised) whenever a vector is empty, the lengths differ, or a magnitude is
zero; on every other input it returns the dot product divided by the
product of the magnitudes. -/
theorem cosine_similarity_spec (a b : List ℝ) :
    ((a = [] ∨ b = [] ∨ a.length ≠ b.length ∨ magnitude a = 0 ∨
        magnitude b = 0) → cosine_similarity a b = 0) ∧
    (a ≠ [] → b ≠ [] → a.length = b.length → magnitude a ≠ 0 →
      magnitude b ≠ 0 →
      cosine_similarity a b = dotList a b / (magnitude a * magnitude b)) := by
  constructor
  · intro h
    by_cases hd : a = [] ∨ b = [] ∨ a.length ≠ b.length
    · simp [cosine_similarity, hd]
    · have hm : magnitude a = 0 ∨ magnitude b = 0 := by tauto
      rw [cosine_similarity, if_neg hd, if_pos hm]
  · intro ha hb hlen hma hmb
    have h1 : ¬(a = [] ∨ b = [] ∨ a.length ≠ b.length) := by
      push_neg
      exact ⟨ha, hb, hlen⟩
    have h2 : ¬(magnitude a = 0 ∨ magnitude b = 0) := by
      push_neg
      exact ⟨hma, hmb⟩
    rw [cosine_similarity, if_neg h1, if_neg h2]

/-- C7 (witness): a degenerate pair (mismatched lengths, one side empty)
yields 0, and a non-degenerate pair yields the quotient formula. -/
theorem cosine_similarity_spec_witness :
    cosine_similarity [(1 : ℝ)] [] = 0 ∧
    cosine_similarity [(1 : ℝ)] [1] =
      dotList [1] [1] / (magnitude [1] * magnitude [1]) := by
  have hmag : magnitude [(1 : ℝ)] = 1 := by
    simp [magnitude, sumSq]
  exact ⟨(cosine_similarity_spec [(1 : ℝ)] []).1 (Or.inr (Or.inl rfl)),
    (cosine_similarity_spec [(1 : ℝ)] [1]).2 (by simp) (by simp) rfl
      (by rw [hmag]; exact one_ne_zero) (by rw [hmag]; exact one_ne_zero)⟩

/-- C8: for any vector with a non-zero coordinate, the cosine similarity of
the vector with itself is exactly 1 (in the exact real-number semantics
that models the Python floats). -/
theorem cosine_similarity_self_eq_one (v : List ℝ) (h : ∃ x ∈ v, x ≠ 0) :
    cosine_similarity v v = 1 := by
  have hv : v ≠ [] := by
    rintro rfl
    simp at h
  have hpos : 0 < sumSq v := sumSq_pos v h
  have hmagpos : 0 < magnitude v := by
    simp only [magnitude]
    exact Real.sqrt_pos.mpr hpos
  have hmag : magnitude v ≠ 0 := ne_of_gt hmagpos
  have h1 : ¬(v = [] ∨ v = [] ∨ v.length ≠ v.length) := by simp [hv]
  have h2 : ¬(magnitude v = 0 ∨ magnitude v = 0) := by simp [hmag]
  have h3 : magnitude v * magnitude v = sumSq v := by
    simp only [magnitude]
    exact Real.mul_self_sqrt hpos.le
  rw [cosine_similarity, if_neg h1, if_neg h2, dotList_self, h3]
  exact div_self (ne_of_gt hpos)

/-- C8 (witness): the self-similarity of the concrete non-zero vector
`[1]` is 1. -/
theorem cosine_similarity_self_eq_one_witness :
    cosine_similarity [(1 : ℝ)] [1] = 1 :=
  cosine_similarity_self_eq_one [1] ⟨1, by simp, one_ne_zero⟩

/-- C9: saving a memory and then keyword-searching for any substring of its
content (with a limit at least the number of matching rows, so the new row
cannot be cut off) returns a list containing that memory: the row carries
the assigned id and the saved content. -/
theorem save_then_keyword_finds (embed : String → EmbedOutcome)
    (model : String) (st : Store) (content : String) (title : Option String)
    (tags : Option (List String)) (source : Option String)
    (generate_embedding : Bool) (now : Nat) (pre q suf : String) (lim : Nat)
    (hc : content = pre ++ q ++ suf)
    (hlim : (((save_memory embed model st content title tags source
        generate_embedding now).1.memories.filter (keywordMatch q)).length ≤
        lim)) :
    ∃ m ∈ searchMemoriesKeyword
        (save_memory embed model st content title tags source
          generate_embedding now).1 q lim,
      m.id = st.nextId ∧ m.content = content := by
  have hmems := save_memory_memories embed model st content title tags source
    generate_embedding now
  have hdata : content.data = pre.data ++ (q.data ++ suf.data) := by
    rw [hc, String.data_append, String.data_append, List.append_assoc]
  set newRow : Memory :=
    { id := st.nextId, created_at := now, title := title, content := content,
      tags := tags.getD [], source := source } with hrow
  have hmatch : keywordMatch q newRow = true := by
    have h2 := likeMatch_substring q.data pre.data suf.data
    simp [keywordMatch, likePattern, hrow, hdata, h2]
  refine ⟨newRow, mem_searchMemoriesKeyword _ q lim _ ?_ hmatch hlim, rfl, rfl⟩
  rw [hmems]
  simp

/-- C9 (witness): on the empty store, saving `"buy milk"` and searching for
the substring `"milk"` with limit 10 finds the saved memory. -/
theorem save_then_keyword_finds_witness :
    ∃ m ∈ searchMemoriesKeyword
        (save_memory (fun _ => EmbedOutcome.unavailable) "m" store0
          "buy milk" none none none true 0).1 "milk" 10,
      m.id = store0.nextId ∧ m.content = "buy milk" :=
  save_then_keyword_finds (fun _ => EmbedOutcome.unavailable) "m" store0
    "buy milk" none none none true 0 "buy " "milk" "" 10 (by decide)
    (by decide)

/-- C10: the empty query's `LIKE` pattern is `%%`, which matches every row
(`%` is an unescaped wildcard), so keyword search with the empty query
accepts every stored memory regardless of content or title and returns the
`limit` most recent ones, ordered by `created_at` descending then `id`
descending. -/
theorem keyword_empty_query_most_recent (st : Store) (lim : Nat) :
    (∀ m ∈ st.memories, keywordMatch "" m = true) ∧
    searchMemoriesKeyword st "" lim = mostRecent st lim := by
  refine ⟨fun m _ => keywordMatch_empty m, ?_⟩
  unfold searchMemoriesKeyword mostRecent
  rw [List.filter_eq_self.mpr fun m _ => keywordMatch_empty m]

end MemoryMcp
